import Mathlib

/-!
Verification of the `auto-scout.js` aggregation / dedup / summarize / merge
pipeline of the longevity-news-agent repository.

The JavaScript source is shallowly embedded as follows:

* Strings are Lean `String`s; the JS string helpers used by the pipeline
  (`toLowerCase`, `trim`, `replace(/\/+$/, "")`, `parseInt(s, 10) || 0`,
  `String(n)`) are modelled as executable Lean functions over `String.data`.
* The three record shapes of the pipeline (fetched candidates, summarized
  records, persisted corpus entries) are Lean structures.
* Network and filesystem effects are oracles: each adapter call, the
  summarization HTTP exchange, the `JSON.parse` of the reply, and the
  `readFileSync`/`JSON.parse` of the corpus file are inputs of the run
  (an `AutoEnv`), and the run is a pure function producing the list of
  outward events (adapter fetches, summarization request, corpus write),
  the process outcome, and the written corpus (if any).
-/

/-- One fetched candidate item, as produced by the five source adapters
(`title`, `source`, `link`, `pubDate`, `origin` fields of the objects built
in `fetchGoogleNews` .. `fetchOpenAlex`). -/
structure Candidate where
  title : String
  source : String
  link : String
  pubDate : String
  origin : String
deriving DecidableEq

/-- One summarized record, as parsed from the Claude reply (auto mode) or
supplied via `--articles` (apply mode): the five content fields the merge
loops read (`title`, `summary`, `bottomLine`, `category`, `sourceUrl`). -/
structure RawArticle where
  title : String
  summary : String
  bottomLine : String
  category : String
  sourceUrl : String
deriving DecidableEq

/-- One persisted corpus entry, with the seven fields written by both merge
loops of `main`. -/
structure ArticleEntry where
  id : String
  title : String
  summary : String
  bottomLine : String
  category : String
  publishDate : String
  sourceUrl : String
deriving DecidableEq

/-- JS `s.toLowerCase()` restricted to basic-latin letters (the embedding of
case folding used throughout). -/
def jsToLower (s : String) : String :=
  String.mk (s.data.map Char.toLower)

/-- JS `s.trim()`: drop leading and trailing whitespace. -/
def jsTrim (s : String) : String :=
  String.mk (((s.data.dropWhile Char.isWhitespace).reverse.dropWhile Char.isWhitespace).reverse)

/-- JS `s.replace(/\/+$/, "")`: drop every trailing `/`. -/
def stripTrailingSlashes (s : String) : String :=
  String.mk ((s.data.reverse.dropWhile (fun c => c = '/')).reverse)

/-- URL normalization of `isDuplicate` (auto-scout.js line 55):
`url.replace(/\/+$/, "").toLowerCase()`. -/
def normalizeUrl (s : String) : String :=
  jsToLower (stripTrailingSlashes s)

/-- Title normalization of `isDuplicate` (auto-scout.js line 56):
`title.toLowerCase().trim()`. -/
def normalizeTitle (s : String) : String :=
  jsTrim (jsToLower s)

/-- `isDuplicate(existing, url, title)` (auto-scout.js lines 54-62): some
existing entry matches on normalized URL or normalized title. -/
def isDuplicate (existing : List ArticleEntry) (url title : String) : Bool :=
  existing.any (fun a =>
    normalizeUrl a.sourceUrl == normalizeUrl url
      || normalizeTitle a.title == normalizeTitle title)

/-- Value of a digit string, most significant digit first (the accumulation
`parseInt` performs on the decimal digits it consumes). -/
def digitsVal (cs : List Char) : Nat :=
  cs.foldl (fun n c => 10 * n + (c.toNat - 48)) 0

/-- Sign-and-digits part of `parseInt` after leading whitespace is gone. -/
def jsParseIntAux : List Char → Int
  | [] => 0
  | c :: rest =>
    if c = '-' then
      -(Int.ofNat (digitsVal (rest.takeWhile Char.isDigit)))
    else if c = '+' then
      Int.ofNat (digitsVal (rest.takeWhile Char.isDigit))
    else
      Int.ofNat (digitsVal ((c :: rest).takeWhile Char.isDigit))

/-- JS `parseInt(s, 10) || 0`: skip leading whitespace, take an optional
sign, consume the longest digit run; `NaN` (no digit consumed) becomes `0`
through `|| 0`. -/
def jsParseInt (s : String) : Int :=
  jsParseIntAux (s.data.dropWhile Char.isWhitespace)

/-- Decimal digits of `n`, least significant first, with explicit fuel so
that the kernel can evaluate it. -/
def natDigitsRevFuel : Nat → Nat → List Char
  | 0, _ => []
  | fuel + 1, n =>
    if n < 10 then [Nat.digitChar n]
    else Nat.digitChar (n % 10) :: natDigitsRevFuel fuel (n / 10)

/-- Decimal digits of `n`, least significant first (`n + 1` is always enough
fuel). -/
def natDigitsRev (n : Nat) : List Char :=
  natDigitsRevFuel (n + 1) n

/-- JS `String(n)` for a natural number. -/
def natToString (n : Nat) : String :=
  String.mk (natDigitsRev n).reverse

/-- JS `String(m)` for an integer (the pipeline only ever prints
non-negative ids). -/
def intToString (m : Int) : String :=
  if m < 0 then "-" ++ natToString (-m).toNat else natToString m.toNat

/-- Numeric id of a corpus entry: `parseInt(a.id, 10) || 0` as used in the
`maxId` reduction of both merge loops (auto-scout.js lines 280 and 366). -/
def entryIdNum (a : ArticleEntry) : Int :=
  jsParseInt a.id

/-- `existing.reduce((max, a) => Math.max(max, parseInt(a.id, 10) || 0), 0)`. -/
def maxIdOf (existing : List ArticleEntry) : Int :=
  existing.foldl (fun m a => max m (entryIdNum a)) 0

/-- The entry object both merge loops build for an accepted article
(auto-scout.js lines 289-297 and 375-383): freshly assigned decimal id,
content fields copied from the article, `publishDate` stamped with the
current Hebrew-locale date. `bottomLine || ""` of the auto loop is the
identity on strings (`""` is falsy and maps to `""`), so one constructor
serves both loops. -/
def mkEntry (idv : Int) (a : RawArticle) (today : String) : ArticleEntry :=
  { id := intToString idv, title := a.title, summary := a.summary,
    bottomLine := a.bottomLine, category := a.category,
    publishDate := today, sourceUrl := a.sourceUrl }

/-- The shared shape of both merge loops (auto-scout.js lines 283-301 and
369-387): for each article in input order, skip it when `isDuplicate`
matches the corpus as mutated so far, otherwise increment the running max,
prepend the new entry (`existing.unshift`), and count it. -/
def mergeGo (today : String) :
    List RawArticle → List ArticleEntry → Int → Nat → List ArticleEntry × Nat
  | [], cur, _, added => (cur, added)
  | a :: rest, cur, maxId, added =>
    if isDuplicate cur a.sourceUrl a.title then
      mergeGo today rest cur maxId added
    else
      mergeGo today rest (mkEntry (maxId + 1) a today :: cur) (maxId + 1) (added + 1)

/-- A whole merge step: compute the running max over the pre-existing corpus
and run the loop; returns the final corpus and the number of insertions. -/
def merge (existing : List ArticleEntry) (arts : List RawArticle) (today : String) :
    List ArticleEntry × Nat :=
  mergeGo today arts existing (maxIdOf existing) 0

/-- Pairwise separation of corpus entries on both deduplication keys. -/
def entryKeysDistinct (a b : ArticleEntry) : Prop :=
  normalizeUrl a.sourceUrl ≠ normalizeUrl b.sourceUrl ∧
    normalizeTitle a.title ≠ normalizeTitle b.title

instance : DecidableRel entryKeysDistinct := fun a b =>
  inferInstanceAs (Decidable (normalizeUrl a.sourceUrl ≠ normalizeUrl b.sourceUrl ∧
    normalizeTitle a.title ≠ normalizeTitle b.title))

/-- A small well-formed two-entry corpus used by concrete instances. -/
def corpusAB : List ArticleEntry :=
  [{ id := "3", title := "alpha", summary := "s", bottomLine := "b",
     category := "c", publishDate := "d",
     sourceUrl := "https://example.com/alpha" },
   { id := "7", title := "beta", summary := "s", bottomLine := "b",
     category := "c", publishDate := "d",
     sourceUrl := "https://example.com/beta" }]

/-- A one-entry corpus whose only numeric id is negative. -/
def corpusNeg : List ArticleEntry :=
  [{ id := "-5", title := "old entry", summary := "s", bottomLine := "b",
     category := "c", publishDate := "d",
     sourceUrl := "https://old.example/x" }]

/-- Fresh accepted articles used by concrete instances. -/
def artGamma : RawArticle :=
  { title := "gamma", summary := "s2", bottomLine := "b2",
    category := "c2", sourceUrl := "https://example.com/gamma" }

def artDelta : RawArticle :=
  { title := "delta", summary := "s3", bottomLine := "b3",
    category := "c3", sourceUrl := "https://example.com/delta" }

/-- Outward-visible effects of one run: a network fetch by a source adapter,
the HTTPS request to the summarization service (carrying the candidate batch
embedded in its payload), and the corpus-file write. -/
inductive Event where
  | fetchSource (name : String)
  | claudeRequest (batch : List Candidate)
  | writeCorpus
deriving DecidableEq

/-- Oracle environment of one run: the outcome each external interaction
would have if performed. Adapter fields model the settled promise of each
`fetch*` call; `claudeOk`, `stopReason` and `replyText` model the Anthropic
HTTP exchange; `parseJson` models `JSON.parse` on the extracted substring;
`file` models `readFileSync` + `JSON.parse` of `content/articles.json`
(`Except.error` = missing, unreadable, or unparseable); `today` models
`hebrewDate()`. -/
structure AutoEnv where
  googleNews : Except String (List Candidate)
  scienceDaily : Except String (List Candidate)
  medNewsToday : Except String (List Candidate)
  pubMed : Except String (List Candidate)
  openAlex : Except String (List Candidate)
  apiKey : Option String
  claudeOk : Bool
  claudeErrBody : String
  stopReason : String
  replyText : String
  parseJson : String → Option (List RawArticle)
  today : String
  file : Except String (List ArticleEntry)

/-- `loadExisting()` (auto-scout.js lines 46-52): parse the corpus file,
returning `[]` on any failure (`catch { return []; }`). -/
def loadExisting (file : Except String (List ArticleEntry)) : List ArticleEntry :=
  match file with
  | .ok entries => entries
  | .error _ => []

def MAX_PER_SOURCE : Nat := 2

def MAX_ARTICLES_PER_BATCH : Nat := 10

/-- `text.match(/\[[\s\S]*\]/)` (auto-scout.js line 254): the regex matches
iff some `[` is followed by some `]`; the greedy match runs from the first
`[` to the last `]` of the whole text. -/
def extractJsonArray (s : String) : Option String :=
  let cs := s.data
  match cs.findIdx? (fun c => c = '['), cs.reverse.findIdx? (fun c => c = ']') with
  | some i, some jr =>
    let j := cs.length - 1 - jr
    if i < j then some (String.mk ((cs.drop i).take (j + 1 - i))) else none
  | _, _ => none

/-- `summarizeWithClaude(items)` (auto-scout.js lines 187-266): check the
credential, truncate the batch to `MAX_ARTICLES_PER_BATCH`, send one request
carrying the batch, then validate: HTTP success, not `max_tokens`-truncated,
an array-shaped substring exists, and it parses as JSON. Returns the events
it caused together with the parsed records or the thrown error. -/
def summarizeWithClaude (env : AutoEnv) (items : List Candidate) :
    List Event × Except String (List RawArticle) :=
  match env.apiKey with
  | none =>
    ([], .error "ANTHROPIC_API_KEY environment variable is required for auto mode")
  | some _ =>
    let batch := items.take MAX_ARTICLES_PER_BATCH
    let events := [Event.claudeRequest batch]
    if env.claudeOk = false then
      (events, .error ("Anthropic API error: " ++ env.claudeErrBody))
    else if env.stopReason = "max_tokens" then
      (events, .error "Claude response was truncated")
    else
      match extractJsonArray env.replyText with
      | none => (events, .error "Could not find JSON array in Claude response")
      | some jsonStr =>
        match env.parseJson jsonStr with
        | none => (events, .error "Failed to parse Claude response as JSON")
        | some arr => (events, .ok arr)

/-- The per-adapter `try/catch` of the aggregation step (auto-scout.js lines
322-333): a rejected adapter promise is logged and replaced by `[]`. -/
def recoverEmpty (r : Except String (List Candidate)) : List Candidate :=
  match r with
  | .ok items => items
  | .error _ => []

/-- `(await Promise.all(sources.map(...))).flat()` (auto-scout.js lines
314-335): the five adapters in their fixed order, each failure isolated,
results concatenated. -/
def fetchAllSources (env : AutoEnv) : List Candidate :=
  ([env.googleNews, env.scienceDaily, env.medNewsToday, env.pubMed,
    env.openAlex].map recoverEmpty).flatten

/-- The fetch events of the aggregation step, in the fixed adapter order. -/
def fetchEvents : List Event :=
  [.fetchSource "Google News", .fetchSource "ScienceDaily",
   .fetchSource "Medical News Today", .fetchSource "PubMed",
   .fetchSource "OpenAlex"]

/-- `allItems.filter((item) => !isDuplicate(existing, item.link, item.title))`
(auto-scout.js line 338). -/
def newItemsOf (env : AutoEnv) : List Candidate :=
  (fetchAllSources env).filter
    (fun item => !(isDuplicate (loadExisting env.file) item.link item.title))

/-- The three invocation modes of `main`: dry run (default), `--auto`, and
`--apply --articles=JSON` with the decoded article list. -/
inductive Mode where
  | dry
  | auto
  | apply (articles : List RawArticle)

/-- Result of one run: the outward events in order, the process outcome
(`error` = the promise rejected and `process.exit(1)` fired), and the corpus
document written by `writeFileSync`, if any (`none` = the persisted file is
untouched, byte-identical to its pre-run state). -/
structure RunResult where
  events : List Event
  outcome : Except String Unit
  written : Option (List ArticleEntry)

/-- Auto-mode tail of `main` (auto-scout.js lines 362-391): branch on the
summarization outcome; on success merge and write, on a thrown error reject
without writing. -/
def finishAuto (existing : List ArticleEntry) (today : String) :
    List Event × Except String (List RawArticle) → RunResult
  | (sev, .error e) => ⟨fetchEvents ++ sev, .error e, none⟩
  | (sev, .ok summarized) =>
    ⟨fetchEvents ++ sev ++ [Event.writeCorpus], .ok (),
      some (merge existing summarized today).1⟩

/-- `main()` (auto-scout.js lines 270-400). Apply mode merges the supplied
articles and writes without fetching. The other modes load the corpus, fetch
all sources, filter duplicates, and return early when nothing is new; dry
mode stops there, auto mode summarizes and merges. -/
def runMain (env : AutoEnv) (mode : Mode) : RunResult :=
  match mode with
  | .apply articles =>
    ⟨[Event.writeCorpus], .ok (),
      some (merge (loadExisting env.file) articles env.today).1⟩
  | .dry =>
    ⟨fetchEvents, .ok (), none⟩
  | .auto =>
    if (newItemsOf env).isEmpty then ⟨fetchEvents, .ok (), none⟩
    else finishAuto (loadExisting env.file) env.today
      (summarizeWithClaude env (newItemsOf env))

/-- A candidate as Google News would yield it. -/
def candA : Candidate :=
  { title := "candidate one", source := "src", link := "https://cand.example/one",
    pubDate := "2025-10-01", origin := "google-news" }

/-- A second candidate, from ScienceDaily. -/
def candB : Candidate :=
  { title := "candidate two", source := "src2", link := "https://cand.example/two",
    pubDate := "2025-10-02", origin := "sciencedaily" }

/-- An environment for an auto run with the credential absent: one fresh
candidate is available, the corpus file is missing. -/
def envNoKey : AutoEnv :=
  { googleNews := .ok [candA], scienceDaily := .ok [], medNewsToday := .ok [],
    pubMed := .ok [], openAlex := .ok [],
    apiKey := none, claudeOk := true, claudeErrBody := "",
    stopReason := "end_turn", replyText := "",
    parseJson := fun _ => none, today := "8.10.2025",
    file := .error "ENOENT: no such file or directory" }

/-- The exact JSON array a well-behaved reply would carry (one record). -/
def jsonReplyT1 : String :=
  "[\x7b\"title\":\"t1\",\"summary\":\"s1\",\"bottomLine\":\"b1\",\"category\":\"c1\",\"sourceUrl\":\"u1\"\x7d]"

/-- The record `JSON.parse` yields for `jsonReplyT1`. -/
def artT1 : RawArticle :=
  { title := "t1", summary := "s1", bottomLine := "b1",
    category := "c1", sourceUrl := "u1" }

/-- An environment for an auto run in which two fresh candidates are sent
for summarization but the service replies with a one-record array wrapped in
prose; `parseJson` behaves as `JSON.parse` does on the extracted substring. -/
def envProse : AutoEnv :=
  { googleNews := .ok [candA], scienceDaily := .ok [candB], medNewsToday := .ok [],
    pubMed := .ok [], openAlex := .ok [],
    apiKey := some "sk-test", claudeOk := true, claudeErrBody := "",
    stopReason := "end_turn",
    replyText := "Here are the summaries you asked for: " ++ jsonReplyT1 ++ " hope this helps",
    parseJson := fun s => if s = jsonReplyT1 then some [artT1] else none,
    today := "8.10.2025",
    file := .error "ENOENT: no such file or directory" }

set_option maxRecDepth 16384

lemma stripTrailingSlashes_append_slash (s : String) :
    stripTrailingSlashes (s ++ "/") = stripTrailingSlashes s := by
  simp [stripTrailingSlashes]

lemma normalizeUrl_append_slash (s : String) :
    normalizeUrl (s ++ "/") = normalizeUrl s := by
  simp [normalizeUrl, stripTrailingSlashes_append_slash]

/-- Claim C1: `isDuplicate(corpus, url, title)` is true iff some corpus entry
matches the candidate on normalized `sourceUrl` or on normalized `title`
(URL normalization strips trailing slashes and lowercases, title
normalization lowercases and trims); in particular a candidate link that
differs from a stored `sourceUrl` only by a trailing slash is a duplicate. -/
theorem isDuplicate_iff_normalized_match :
    (∀ (existing : List ArticleEntry) (url title : String),
      isDuplicate existing url title = true ↔
        ∃ a ∈ existing,
          normalizeUrl a.sourceUrl = normalizeUrl url ∨
            normalizeTitle a.title = normalizeTitle title) ∧
    (∀ (e : ArticleEntry) (rest : List ArticleEntry) (url title : String),
      e.sourceUrl = url ++ "/" →
      isDuplicate (e :: rest) url title = true) := by
  constructor
  · intro existing url title
    simp [isDuplicate, List.any_eq_true]
  · intro e rest url title he
    simp only [isDuplicate, List.any_cons, Bool.or_eq_true, beq_iff_eq]
    left
    left
    rw [he, normalizeUrl_append_slash]

/-- Concrete instance of C1: a stored URL with a trailing slash matches the
same URL without it (the example from the specification). -/
theorem isDuplicate_iff_normalized_match_witness :
    isDuplicate
      [{ id := "1", title := "old", summary := "s", bottomLine := "b",
         category := "c", publishDate := "d",
         sourceUrl := "https://example.com/a/" }]
      "https://example.com/a" "fresh title" = true :=
  isDuplicate_iff_normalized_match.2
    { id := "1", title := "old", summary := "s", bottomLine := "b",
      category := "c", publishDate := "d",
      sourceUrl := "https://example.com/a/" }
    [] "https://example.com/a" "fresh title" rfl

lemma digitsVal_append_singleton (cs : List Char) (c : Char) :
    digitsVal (cs ++ [c]) = 10 * digitsVal cs + (c.toNat - 48) := by
  simp only [digitsVal]
  rw [List.foldl_append, List.foldl_cons, List.foldl_nil]

lemma digitChar_val (d : Nat) (h : d < 10) : (Nat.digitChar d).toNat - 48 = d := by
  interval_cases d <;> decide

lemma digitChar_isDigit (d : Nat) (h : d < 10) : (Nat.digitChar d).isDigit = true := by
  interval_cases d <;> decide

lemma isDigit_not_whitespace (c : Char) (h : c.isDigit = true) :
    c.isWhitespace = false := by
  by_contra hw
  rw [Bool.not_eq_false] at hw
  simp only [Char.isWhitespace, Bool.or_eq_true, decide_eq_true_eq] at hw
  rcases hw with ((rfl | rfl) | rfl) | rfl <;> revert h <;> decide

lemma isDigit_ne_minus (c : Char) (h : c.isDigit = true) : c ≠ '-' := by
  rintro rfl; revert h; decide

lemma isDigit_ne_plus (c : Char) (h : c.isDigit = true) : c ≠ '+' := by
  rintro rfl; revert h; decide

lemma natDigitsRevFuel_val (fuel : Nat) :
    ∀ n, n < fuel → digitsVal (natDigitsRevFuel fuel n).reverse = n := by
  induction fuel with
  | zero => intro n h; omega
  | succ fuel ih =>
    intro n h
    rw [natDigitsRevFuel]
    by_cases h10 : n < 10
    · simp only [if_pos h10]
      simp [digitsVal, digitChar_val n h10]
    · simp only [if_neg h10]
      rw [List.reverse_cons, digitsVal_append_singleton,
        ih (n / 10) (by omega), digitChar_val (n % 10) (by omega)]
      omega

lemma natDigitsRevFuel_digits (fuel : Nat) :
    ∀ n, n < fuel → ∀ c ∈ natDigitsRevFuel fuel n, c.isDigit = true := by
  induction fuel with
  | zero => intro n h; omega
  | succ fuel ih =>
    intro n h c hc
    rw [natDigitsRevFuel] at hc
    by_cases h10 : n < 10
    · simp only [if_pos h10, List.mem_singleton] at hc
      exact hc ▸ digitChar_isDigit n h10
    · simp only [if_neg h10, List.mem_cons] at hc
      rcases hc with rfl | hc
      · exact digitChar_isDigit (n % 10) (by omega)
      · exact ih (n / 10) (by omega) c hc

lemma natDigitsRevFuel_ne_nil (fuel n : Nat) (h : n < fuel) :
    natDigitsRevFuel fuel n ≠ [] := by
  cases fuel with
  | zero => omega
  | succ fuel =>
    rw [natDigitsRevFuel]
    by_cases h10 : n < 10 <;> simp [h10]

lemma jsParseInt_natToString (n : Nat) : jsParseInt (natToString n) = n := by
  have hdig : ∀ c ∈ (natDigitsRev n).reverse, c.isDigit = true := by
    intro c hc
    exact natDigitsRevFuel_digits (n + 1) n (Nat.lt_succ_self n) c (List.mem_reverse.mp hc)
  have hne : (natDigitsRev n).reverse ≠ [] := by
    intro h
    exact natDigitsRevFuel_ne_nil (n + 1) n (Nat.lt_succ_self n) (by simpa using h)
  obtain ⟨c, rest, hcr⟩ : ∃ c rest, (natDigitsRev n).reverse = c :: rest := by
    cases h : (natDigitsRev n).reverse with
    | nil => exact absurd h hne
    | cons c rest => exact ⟨c, rest, rfl⟩
  have hc : c.isDigit = true := hdig c (by rw [hcr]; exact List.mem_cons_self c rest)
  have hdrop : ((natDigitsRev n).reverse).dropWhile Char.isWhitespace = c :: rest := by
    rw [hcr, List.dropWhile_cons_of_neg (by simp [isDigit_not_whitespace c hc])]
  have htake : (c :: rest).takeWhile Char.isDigit = c :: rest := by
    rw [List.takeWhile_eq_self_iff]
    intro x hx
    rw [← hcr] at hx
    simpa using hdig x hx
  have hstep : jsParseInt (natToString n)
      = jsParseIntAux (((natDigitsRev n).reverse).dropWhile Char.isWhitespace) := rfl
  rw [hstep, hdrop]
  simp only [jsParseIntAux, if_neg (isDigit_ne_minus c hc), if_neg (isDigit_ne_plus c hc)]
  rw [htake, ← hcr]
  rw [show digitsVal (natDigitsRev n).reverse = n from
    natDigitsRevFuel_val (n + 1) n (Nat.lt_succ_self n)]
  rfl

lemma jsParseInt_intToString (m : Int) (h : 0 ≤ m) : jsParseInt (intToString m) = m := by
  rw [intToString, if_neg (by omega)]
  rw [jsParseInt_natToString m.toNat]
  omega

lemma foldl_max_ge_init (l : List ArticleEntry) :
    ∀ acc : Int, acc ≤ l.foldl (fun m a => max m (entryIdNum a)) acc := by
  induction l with
  | nil => intro acc; simp
  | cons a rest ih =>
    intro acc
    rw [List.foldl_cons]
    exact le_trans (le_max_left acc (entryIdNum a)) (ih (max acc (entryIdNum a)))

lemma foldl_max_ge_mem (l : List ArticleEntry) :
    ∀ acc : Int, ∀ a ∈ l, entryIdNum a ≤ l.foldl (fun m a => max m (entryIdNum a)) acc := by
  induction l with
  | nil => intro acc a ha; simp at ha
  | cons b rest ih =>
    intro acc a ha
    rw [List.foldl_cons]
    rcases List.mem_cons.mp ha with rfl | ha
    · exact le_trans (le_max_right acc (entryIdNum a)) (foldl_max_ge_init rest _)
    · exact ih (max acc (entryIdNum b)) a ha

lemma maxIdOf_nonneg (existing : List ArticleEntry) : 0 ≤ maxIdOf existing :=
  foldl_max_ge_init existing 0

lemma maxIdOf_ge (existing : List ArticleEntry) (a : ArticleEntry) (ha : a ∈ existing) :
    entryIdNum a ≤ maxIdOf existing :=
  foldl_max_ge_mem existing 0 a ha

lemma entryIdNum_mkEntry (idv : Int) (a : RawArticle) (today : String) (h : 0 ≤ idv) :
    entryIdNum (mkEntry idv a today) = idv :=
  jsParseInt_intToString idv h

/-- Structural specification of the merge loop: it prepends a block `ins` of
new entries, counts them, and their numeric ids read, in insertion order,
`maxId + 1, maxId + 2, ...`. -/
lemma mergeGo_spec (today : String) (arts : List RawArticle) :
    ∀ (cur : List ArticleEntry) (maxId : Int) (added : Nat), 0 ≤ maxId →
      ∃ ins : List ArticleEntry,
        mergeGo today arts cur maxId added = (ins ++ cur, added + ins.length) ∧
        ins.reverse.map entryIdNum
          = (List.range ins.length).map (fun i => maxId + 1 + Int.ofNat i) := by
  induction arts with
  | nil =>
    intro cur maxId added _
    exact ⟨[], by simp [mergeGo], by simp⟩
  | cons a rest ih =>
    intro cur maxId added hmax
    by_cases hd : isDuplicate cur a.sourceUrl a.title
    · obtain ⟨ins, h1, h2⟩ := ih cur maxId added hmax
      refine ⟨ins, ?_, h2⟩
      rw [mergeGo, if_pos hd, h1]
    · obtain ⟨ins, h1, h2⟩ :=
        ih (mkEntry (maxId + 1) a today :: cur) (maxId + 1) (added + 1) (by omega)
      refine ⟨ins ++ [mkEntry (maxId + 1) a today], ?_, ?_⟩
      · rw [mergeGo, if_neg hd, h1]
        simp [List.append_assoc]
        omega
      · rw [List.reverse_append, List.reverse_singleton, List.singleton_append,
          List.map_cons, h2]
        rw [entryIdNum_mkEntry (maxId + 1) a today (by omega)]
        rw [List.length_append, List.length_singleton]
        rw [List.range_succ_eq_map, List.map_cons, List.map_map]
        refine congrArg₂ List.cons (by simp) ?_
        refine List.map_congr_left ?_
        intro i _
        simp [Function.comp]
        omega

/-- Claim C7: every merge processes accepted entries in input order and
prepends each non-duplicate one, so the final corpus is a block of `added`
new entries in descending consecutive id order (highest id first) in front
of the untouched pre-existing corpus, and its length is the previous length
plus the number of insertions. -/
theorem merge_prepends_descending_ids :
    ∀ (existing : List ArticleEntry) (arts : List RawArticle) (today : String),
      ∃ ins : List ArticleEntry,
        merge existing arts today = (ins ++ existing, ins.length) ∧
        (merge existing arts today).1.length
          = existing.length + (merge existing arts today).2 ∧
        ins.map entryIdNum
          = ((List.range ins.length).map
              (fun i => maxIdOf existing + 1 + Int.ofNat i)).reverse := by
  intro existing arts today
  obtain ⟨ins, h1, h2⟩ :=
    mergeGo_spec today arts existing (maxIdOf existing) 0 (maxIdOf_nonneg existing)
  refine ⟨ins, by rw [merge, h1]; simp, ?_, ?_⟩
  · rw [merge, h1]
    simp [Nat.add_comm]
  · rw [← h2, List.map_reverse, List.reverse_reverse]

lemma isDuplicate_eq_false_iff (cur : List ArticleEntry) (url title : String) :
    isDuplicate cur url title = false ↔
      ∀ a ∈ cur,
        normalizeUrl a.sourceUrl ≠ normalizeUrl url ∧
          normalizeTitle a.title ≠ normalizeTitle title := by
  simp [isDuplicate, List.any_eq_false, not_or]

lemma mergeGo_pairwise (today : String) (arts : List RawArticle) :
    ∀ (cur : List ArticleEntry) (maxId : Int) (added : Nat),
      cur.Pairwise entryKeysDistinct →
      ((mergeGo today arts cur maxId added).1).Pairwise entryKeysDistinct := by
  induction arts with
  | nil => intro cur maxId added h; simpa [mergeGo] using h
  | cons a rest ih =>
    intro cur maxId added h
    by_cases hd : isDuplicate cur a.sourceUrl a.title
    · rw [mergeGo, if_pos hd]
      exact ih cur maxId added h
    · rw [mergeGo, if_neg hd]
      refine ih _ _ _ (List.pairwise_cons.mpr ⟨?_, h⟩)
      intro b hb
      have hall := (isDuplicate_eq_false_iff cur a.sourceUrl a.title).mp
        (Bool.not_eq_true _ ▸ hd) b hb
      exact ⟨fun hx => hall.1 hx.symm, fun hx => hall.2 hx.symm⟩

/-- Claim C4: if no two pre-existing corpus entries share a normalized
`sourceUrl` or a normalized `title`, then the corpus produced by a merge
(the shared loop of auto mode and apply mode, for any accepted entries)
still has no two entries sharing either normalized key, because every entry
is checked with `isDuplicate` against the corpus as mutated so far and
skipped on a match. -/
theorem merge_preserves_distinct_keys :
    ∀ (existing : List ArticleEntry) (arts : List RawArticle) (today : String),
      existing.Pairwise entryKeysDistinct →
      ((merge existing arts today).1).Pairwise entryKeysDistinct := by
  intro existing arts today h
  exact mergeGo_pairwise today arts existing (maxIdOf existing) 0 h

/-- Concrete instance of C4: merging one fresh article into a two-entry
corpus with pairwise-distinct keys keeps all keys pairwise distinct. -/
theorem merge_preserves_distinct_keys_witness :
    ([({ id := "1", title := "alpha", summary := "s", bottomLine := "b",
         category := "c", publishDate := "d",
         sourceUrl := "https://example.com/alpha" } : ArticleEntry),
       { id := "2", title := "beta", summary := "s", bottomLine := "b",
         category := "c", publishDate := "d",
         sourceUrl := "https://example.com/beta" }].Pairwise entryKeysDistinct) ∧
    ((merge
        [{ id := "1", title := "alpha", summary := "s", bottomLine := "b",
           category := "c", publishDate := "d",
           sourceUrl := "https://example.com/alpha" },
         { id := "2", title := "beta", summary := "s", bottomLine := "b",
           category := "c", publishDate := "d",
           sourceUrl := "https://example.com/beta" }]
        [{ title := "gamma", summary := "s2", bottomLine := "b2",
           category := "c2", sourceUrl := "https://example.com/gamma" }]
        "8.10.2025").1).Pairwise entryKeysDistinct :=
  ⟨by decide,
    merge_preserves_distinct_keys
      [{ id := "1", title := "alpha", summary := "s", bottomLine := "b",
         category := "c", publishDate := "d",
         sourceUrl := "https://example.com/alpha" },
       { id := "2", title := "beta", summary := "s", bottomLine := "b",
         category := "c", publishDate := "d",
         sourceUrl := "https://example.com/beta" }]
      [{ title := "gamma", summary := "s2", bottomLine := "b2",
         category := "c2", sourceUrl := "https://example.com/gamma" }]
      "8.10.2025" (by decide)⟩

/-- Claim C3 (amended): assuming the pre-existing corpus has unique numeric
ids, the entries inserted by one merge receive consecutive decimal ids
`m + 1, m + 2, ...` where `m` is the code's running max — the fold of
`Math.max` over `parseInt(a.id, 10) || 0` with initial accumulator `0`
(hence never below `0`) — and all ids in the resulting corpus are unique. -/
theorem merge_ids_consecutive_from_running_max :
    ∀ (existing : List ArticleEntry) (arts : List RawArticle) (today : String),
      ((existing.map entryIdNum).Nodup) →
      ∃ ins : List ArticleEntry,
        merge existing arts today = (ins ++ existing, ins.length) ∧
        ins.reverse.map entryIdNum
          = (List.range ins.length).map (fun i => maxIdOf existing + 1 + Int.ofNat i) ∧
        (((ins ++ existing).map ArticleEntry.id).Nodup) := by
  intro existing arts today huniq
  obtain ⟨ins, h1, h2⟩ :=
    mergeGo_spec today arts existing (maxIdOf existing) 0 (maxIdOf_nonneg existing)
  refine ⟨ins, by rw [merge, h1]; simp, h2, ?_⟩
  have hnum : ((ins ++ existing).map entryIdNum).Nodup := by
    rw [List.map_append, List.nodup_append]
    refine ⟨?_, huniq, ?_⟩
    · have hrev : (ins.reverse.map entryIdNum).Nodup := by
        rw [h2]
        refine List.Nodup.map ?_ (List.nodup_range _)
        intro i j hij
        simp only at hij
        exact Int.ofNat.inj (add_left_cancel hij)
      rw [List.map_reverse, List.nodup_reverse] at hrev
      exact hrev
    · intro x hx hx2
      have hx' : x ∈ ins.reverse.map entryIdNum := by
        rw [List.map_reverse, List.mem_reverse]
        exact hx
      rw [h2] at hx'
      obtain ⟨i, _, rfl⟩ := List.mem_map.mp hx'
      obtain ⟨a, ha, hax⟩ := List.mem_map.mp hx2
      have hle := maxIdOf_ge existing a ha
      have hnn : 0 ≤ Int.ofNat i := Int.ofNat_nonneg i
      omega
  rw [show entryIdNum = jsParseInt ∘ ArticleEntry.id from rfl, ← List.map_map] at hnum
  exact List.Nodup.of_map jsParseInt hnum

/-- Concrete instance of C3 (amended): merging two fresh articles onto a
corpus with ids `"3"` and `"7"` inserts consecutive ids from the running max
and keeps all ids unique. -/
theorem merge_ids_consecutive_from_running_max_witness :
    ((corpusAB.map entryIdNum).Nodup) ∧
    (∃ ins : List ArticleEntry,
      merge corpusAB [artGamma, artDelta] "8.10.2025" = (ins ++ corpusAB, ins.length) ∧
      ins.reverse.map entryIdNum
        = (List.range ins.length).map (fun i => maxIdOf corpusAB + 1 + Int.ofNat i) ∧
      (((ins ++ corpusAB).map ArticleEntry.id).Nodup)) :=
  ⟨by decide,
    merge_ids_consecutive_from_running_max corpusAB [artGamma, artDelta]
      "8.10.2025" (by decide)⟩

/-- Counterexample to claim C3 as stated: a corpus whose only entry has the
(unique) numeric id `-5`. The claim predicts the inserted entry receives
`max(existing numeric ids) + 1 = -4`, but the running max of the code is
floored at `0` by its initial accumulator, so the inserted entry receives
numeric id `1`. -/
theorem merge_ids_start_counterexample :
    ((corpusNeg.map entryIdNum).Nodup) ∧
    (corpusNeg.map entryIdNum).max? = some (-5) ∧
    ((merge corpusNeg [artGamma] "8.10.2025").1.map entryIdNum) = [1, -5] ∧
    ((merge corpusNeg [artGamma] "8.10.2025").1.map entryIdNum) ≠ [-5 + 1, -5] := by
  refine ⟨by decide, by decide, by decide, by decide⟩

lemma summarize_cases (env : AutoEnv) (items : List Candidate) :
    (env.apiKey = none ∧
      (summarizeWithClaude env items).1 = []) ∨
    (∃ k, env.apiKey = some k ∧
      (summarizeWithClaude env items).1
        = [Event.claudeRequest (items.take MAX_ARTICLES_PER_BATCH)]) := by
  rcases hk : env.apiKey with _ | k
  · left
    exact ⟨rfl, by simp [summarizeWithClaude, hk]⟩
  · right
    refine ⟨k, rfl, ?_⟩
    simp only [summarizeWithClaude, hk]
    by_cases h1 : env.claudeOk = false
    · simp [h1]
    · simp only [if_neg h1]
      by_cases h2 : env.stopReason = "max_tokens"
      · simp [h2]
      · simp only [if_neg h2]
        rcases h3 : extractJsonArray env.replyText with _ | s
        · simp [h3]
        · rcases h4 : env.parseJson s with _ | arr <;> simp [h3, h4]

lemma summarize_error_of_conditions (env : AutoEnv) (items : List Candidate)
    (h : env.apiKey = none ∨ env.claudeOk = false ∨ env.stopReason = "max_tokens" ∨
      extractJsonArray env.replyText = none ∨
      (∃ s, extractJsonArray env.replyText = some s ∧ env.parseJson s = none)) :
    ∃ e, (summarizeWithClaude env items).2 = .error e := by
  rcases hk : env.apiKey with _ | k
  · exact ⟨"ANTHROPIC_API_KEY environment variable is required for auto mode",
      by simp [summarizeWithClaude, hk]⟩
  · simp only [summarizeWithClaude, hk]
    rcases h with h | h | h | h | h
    · rw [hk] at h
      exact absurd h (by simp)
    · exact ⟨"Anthropic API error: " ++ env.claudeErrBody, by simp [h]⟩
    · by_cases h1 : env.claudeOk = false
      · exact ⟨"Anthropic API error: " ++ env.claudeErrBody, by simp [h1]⟩
      · exact ⟨"Claude response was truncated", by simp [if_neg h1, h]⟩
    · by_cases h1 : env.claudeOk = false
      · exact ⟨"Anthropic API error: " ++ env.claudeErrBody, by simp [h1]⟩
      · by_cases h2 : env.stopReason = "max_tokens"
        · exact ⟨"Claude response was truncated", by simp [if_neg h1, h2]⟩
        · exact ⟨"Could not find JSON array in Claude response",
            by simp [if_neg h1, if_neg h2, h]⟩
    · obtain ⟨s, hs, hp⟩ := h
      by_cases h1 : env.claudeOk = false
      · exact ⟨"Anthropic API error: " ++ env.claudeErrBody, by simp [h1]⟩
      · by_cases h2 : env.stopReason = "max_tokens"
        · exact ⟨"Claude response was truncated", by simp [if_neg h1, h2]⟩
        · exact ⟨"Failed to parse Claude response as JSON",
            by simp [if_neg h1, if_neg h2, hs, hp]⟩

lemma summarize_ok_of_parse (env : AutoEnv) (items : List Candidate)
    (k : String) (s : String) (arr : List RawArticle)
    (hk : env.apiKey = some k) (h1 : env.claudeOk = true)
    (h2 : env.stopReason ≠ "max_tokens")
    (h3 : extractJsonArray env.replyText = some s)
    (h4 : env.parseJson s = some arr) :
    (summarizeWithClaude env items).2 = .ok arr := by
  simp [summarizeWithClaude, hk, h1, if_neg h2, h3, h4]

lemma finishAuto_of_error (existing : List ArticleEntry) (today : String)
    (p : List Event × Except String (List RawArticle)) (e : String)
    (hp : p.2 = .error e) :
    finishAuto existing today p = ⟨fetchEvents ++ p.1, .error e, none⟩ := by
  rcases p with ⟨sev, sres⟩
  cases sres with
  | error e2 =>
    simp only [Except.error.injEq] at hp
    subst hp
    rfl
  | ok arr => simp at hp

lemma finishAuto_events (existing : List ArticleEntry) (today : String)
    (p : List Event × Except String (List RawArticle)) :
    (finishAuto existing today p).events = fetchEvents ++ p.1 ∨
    (finishAuto existing today p).events = fetchEvents ++ p.1 ++ [Event.writeCorpus] := by
  rcases p with ⟨sev, sres⟩
  cases sres
  · left; rfl
  · right; rfl

/-- Claim C6: the aggregator nevers propagates an adapter error — it returns
the concatenation, in the fixed adapter order (Google News, ScienceDaily,
Medical News Today, PubMed, OpenAlex), of each adapter outcome with every
failing adapter contributing the empty list. -/
theorem aggregator_isolates_failures :
    (∀ env : AutoEnv,
      fetchAllSources env
        = recoverEmpty env.googleNews ++ recoverEmpty env.scienceDaily
            ++ recoverEmpty env.medNewsToday ++ recoverEmpty env.pubMed
            ++ recoverEmpty env.openAlex) ∧
    (∀ msg : String, recoverEmpty (Except.error msg) = []) ∧
    (∀ items : List Candidate, recoverEmpty (Except.ok items) = items) := by
  refine ⟨?_, fun _ => rfl, fun _ => rfl⟩
  intro env
  simp [fetchAllSources]

/-- Claim C5: in every run and mode, any batch carried by the request to the
summarization service is the input candidate list truncated to
`MAX_ARTICLES_PER_BATCH = 10` entries — excess candidates are simply absent
(dropped, not queued). -/
theorem claude_batch_capped :
    MAX_ARTICLES_PER_BATCH = 10 ∧
    ∀ (env : AutoEnv) (mode : Mode) (b : List Candidate),
      Event.claudeRequest b ∈ (runMain env mode).events →
        b = (newItemsOf env).take MAX_ARTICLES_PER_BATCH ∧
        b.length ≤ MAX_ARTICLES_PER_BATCH := by
  refine ⟨rfl, ?_⟩
  intro env mode b hmem
  have hb : b = (newItemsOf env).take MAX_ARTICLES_PER_BATCH := by
    cases mode with
    | apply articles => simp [runMain] at hmem
    | dry => simp [runMain, fetchEvents] at hmem
    | auto =>
      rw [runMain] at hmem
      by_cases he : (newItemsOf env).isEmpty
      · rw [if_pos he] at hmem
        simp [fetchEvents] at hmem
      · rw [if_neg he] at hmem
        rcases finishAuto_events (loadExisting env.file) env.today
            (summarizeWithClaude env (newItemsOf env)) with hev | hev <;>
          rw [hev] at hmem <;>
          rcases summarize_cases env (newItemsOf env) with ⟨_, hfst⟩ | ⟨k, _, hfst⟩ <;>
          rw [hfst] at hmem <;>
          simp [fetchEvents] at hmem <;>
          exact hmem
  refine ⟨hb, ?_⟩
  rw [hb, List.length_take]
  exact min_le_left _ _

/-- Claim C2: in auto mode, when summarization is reached (there are new
candidates) and any of the five validation conditions fails — missing
credential, non-success HTTP response, `max_tokens` stop reason, no
array-shaped substring in the reply, or a parse failure on that substring —
the run terminates with an error and the corpus file is never written. -/
theorem auto_validation_failure_leaves_corpus :
    ∀ env : AutoEnv,
      newItemsOf env ≠ [] →
      (env.apiKey = none ∨ env.claudeOk = false ∨ env.stopReason = "max_tokens" ∨
        extractJsonArray env.replyText = none ∨
        (∃ s, extractJsonArray env.replyText = some s ∧ env.parseJson s = none)) →
      (∃ e, (runMain env .auto).outcome = Except.error e) ∧
      (runMain env .auto).written = none := by
  intro env hne h
  obtain ⟨e, he⟩ := summarize_error_of_conditions env (newItemsOf env) h
  have hemp : ¬(newItemsOf env).isEmpty := by
    simp [List.isEmpty_iff, hne]
  have hrun : runMain env .auto
      = ⟨fetchEvents ++ (summarizeWithClaude env (newItemsOf env)).1, .error e, none⟩ := by
    rw [runMain, if_neg hemp]
    exact finishAuto_of_error _ _ _ e he
  rw [hrun]
  exact ⟨⟨e, rfl⟩, rfl⟩

lemma autoRun_fails_of_conditions (env : AutoEnv)
    (hne : newItemsOf env ≠ [])
    (h : env.apiKey = none ∨ env.claudeOk = false ∨ env.stopReason = "max_tokens" ∨
      extractJsonArray env.replyText = none ∨
      (∃ s, extractJsonArray env.replyText = some s ∧ env.parseJson s = none)) :
    (∃ e, (runMain env .auto).outcome = Except.error e) ∧
    (runMain env .auto).written = none := by
  obtain ⟨e, he⟩ := summarize_error_of_conditions env (newItemsOf env) h
  have hemp : ¬(newItemsOf env).isEmpty := by
    simp [List.isEmpty_iff, hne]
  have hrun : runMain env .auto
      = ⟨fetchEvents ++ (summarizeWithClaude env (newItemsOf env)).1, .error e, none⟩ := by
    rw [runMain, if_neg hemp]
    exact finishAuto_of_error _ _ _ e he
  rw [hrun]
  exact ⟨⟨e, rfl⟩, rfl⟩

/-- Concrete instance of C2: with the credential absent and one new
candidate, the auto run errors out and the corpus file is untouched. -/
theorem auto_validation_failure_leaves_corpus_witness :
    (∃ e, (runMain envNoKey .auto).outcome = Except.error e) ∧
    (runMain envNoKey .auto).written = none :=
  auto_validation_failure_leaves_corpus envNoKey (by decide) (Or.inl rfl)

/-- Counterexample to claim C8 as stated: an auto run with the credential
absent and one fresh candidate available. The run does fail, but the five
source-adapter fetches have already been issued when it does — the
credential is only checked inside the summarizer, after aggregation. -/
theorem auto_missing_key_fetches_counterexample :
    envNoKey.apiKey = none ∧
    (∃ e, (runMain envNoKey .auto).outcome = Except.error e) ∧
    Event.fetchSource "Google News" ∈ (runMain envNoKey .auto).events ∧
    Event.fetchSource "OpenAlex" ∈ (runMain envNoKey .auto).events := by
  refine ⟨rfl, ⟨"ANTHROPIC_API_KEY environment variable is required for auto mode", rfl⟩,
    by decide, by decide⟩

/-- Claim C8 (amended): in auto mode with the credential absent, no
summarization request is ever issued and the corpus is never written, and
the run terminates with an error whenever there are new candidates; the
source-adapter fetches, however, are issued before the credential check. -/
theorem auto_missing_key_no_summarize_request :
    ∀ env : AutoEnv, env.apiKey = none →
      (∀ b : List Candidate, Event.claudeRequest b ∉ (runMain env .auto).events) ∧
      (runMain env .auto).written = none ∧
      (newItemsOf env ≠ [] → ∃ e, (runMain env .auto).outcome = Except.error e) := by
  intro env hk
  by_cases he : (newItemsOf env).isEmpty
  · have hrun : runMain env .auto = ⟨fetchEvents, .ok (), none⟩ := by
      rw [runMain, if_pos he]
    rw [hrun]
    refine ⟨?_, rfl, ?_⟩
    · intro b
      simp [fetchEvents]
    · intro hne
      rw [List.isEmpty_iff] at he
      exact absurd he hne
  · obtain ⟨e, hee⟩ := summarize_error_of_conditions env (newItemsOf env) (Or.inl hk)
    have hfst : (summarizeWithClaude env (newItemsOf env)).1 = [] := by
      rcases summarize_cases env (newItemsOf env) with ⟨_, h⟩ | ⟨k, hk2, _⟩
      · exact h
      · rw [hk] at hk2
        exact absurd hk2 (by simp)
    have hrun : runMain env .auto
        = ⟨fetchEvents ++ (summarizeWithClaude env (newItemsOf env)).1, .error e, none⟩ := by
      rw [runMain, if_neg he]
      exact finishAuto_of_error _ _ _ e hee
    rw [hrun, hfst]
    refine ⟨?_, rfl, fun _ => ⟨e, rfl⟩⟩
    intro b
    simp [fetchEvents]

/-- Concrete instance of C8 (amended) at `envNoKey`. -/
theorem auto_missing_key_no_summarize_request_witness :
    Event.claudeRequest [] ∉ (runMain envNoKey .auto).events ∧
    Event.claudeRequest [candA] ∉ (runMain envNoKey .auto).events ∧
    (runMain envNoKey .auto).written = none :=
  ⟨(auto_missing_key_no_summarize_request envNoKey rfl).1 [],
   (auto_missing_key_no_summarize_request envNoKey rfl).1 [candA],
   (auto_missing_key_no_summarize_request envNoKey rfl).2.1⟩

/-- Counterexample to claim C9 as stated: two candidates are sent, the reply
wraps a one-record array in prose, yet the run does not abort — the regex
extraction tolerates the prose, the record count is never compared to the
batch size, and the single record is merged and written. -/
theorem summarizer_prose_short_reply_counterexample :
    ((newItemsOf envProse).take MAX_ARTICLES_PER_BATCH).length = 2 ∧
    extractJsonArray envProse.replyText = some jsonReplyT1 ∧
    (summarizeWithClaude envProse (newItemsOf envProse)).2 = Except.ok [artT1] ∧
    (runMain envProse .auto).outcome = Except.ok () ∧
    (runMain envProse .auto).written
      = some [{ id := "1", title := "t1", summary := "s1", bottomLine := "b1",
                category := "c1", publishDate := "8.10.2025", sourceUrl := "u1" }] := by
  refine ⟨rfl, rfl, rfl, rfl, rfl⟩

/-- Claim C9 (amended): the summarizer forwards whatever array parses out of
the reply — prose around the array is tolerated (the bracket-delimited
substring is extracted) and the record count is never compared to the number
of candidates sent; the run aborts, leaving the corpus file untouched, only
when no array-shaped substring exists or the substring fails to parse. -/
theorem summarizer_accepts_extracted_array :
    (∀ (env : AutoEnv) (items : List Candidate) (k s : String) (arr : List RawArticle),
      env.apiKey = some k → env.claudeOk = true → env.stopReason ≠ "max_tokens" →
      extractJsonArray env.replyText = some s → env.parseJson s = some arr →
      (summarizeWithClaude env items).2 = Except.ok arr) ∧
    (∀ env : AutoEnv,
      newItemsOf env ≠ [] →
      (extractJsonArray env.replyText = none ∨
        (∃ s, extractJsonArray env.replyText = some s ∧ env.parseJson s = none)) →
      (∃ e, (runMain env .auto).outcome = Except.error e) ∧
      (runMain env .auto).written = none) := by
  constructor
  · intro env items k s arr hk h1 h2 h3 h4
    exact summarize_ok_of_parse env items k s arr hk h1 h2 h3 h4
  · intro env hne h
    refine autoRun_fails_of_conditions env hne ?_
    rcases h with h | h
    · exact Or.inr (Or.inr (Or.inr (Or.inl h)))
    · exact Or.inr (Or.inr (Or.inr (Or.inr h)))

/-- Concrete instance of C9 (amended) at `envProse`: the one-record array is
forwarded even though two candidates were sent. -/
theorem summarizer_accepts_extracted_array_witness :
    (summarizeWithClaude envProse (newItemsOf envProse)).2 = Except.ok [artT1] :=
  summarizer_accepts_extracted_array.1 envProse (newItemsOf envProse) "sk-test"
    jsonReplyT1 [artT1] rfl rfl (by decide) (by decide) (by decide)

/-- Claim C10: when the corpus file is missing, unreadable, or unparseable,
`loadExisting` returns the empty list instead of failing, so duplicate
checks all return false, the running max is `0` (new ids start at `1`), and
a subsequent successful merge writes a corpus holding only the newly
inserted entries. -/
theorem loadExisting_error_fallback :
    ∀ (e url title today : String) (arts : List RawArticle),
      loadExisting (Except.error e) = [] ∧
      isDuplicate (loadExisting (Except.error e)) url title = false ∧
      maxIdOf (loadExisting (Except.error e)) = 0 ∧
      (∃ ins : List ArticleEntry,
        merge (loadExisting (Except.error e)) arts today = (ins, ins.length) ∧
        ins.reverse.map entryIdNum
          = (List.range ins.length).map (fun i => 1 + Int.ofNat i)) ∧
      (∀ env : AutoEnv, env.file = Except.error e →
        (runMain env (.apply arts)).written = some (merge [] arts env.today).1) := by
  intro e url title today arts
  refine ⟨rfl, rfl, rfl, ?_, ?_⟩
  · obtain ⟨ins, h1, h2⟩ := mergeGo_spec today arts [] 0 0 le_rfl
    refine ⟨ins, ?_, ?_⟩
    · show merge [] arts today = (ins, ins.length)
      rw [merge, show maxIdOf [] = 0 from rfl, h1]
      simp
    · rw [h2]
      refine List.map_congr_left ?_
      intro i _
      omega
  · intro env hf
    show some (merge (loadExisting env.file) arts env.today).1
        = some (merge [] arts env.today).1
    rw [hf]
    rfl

/-- Concrete instance of C10: with the corpus file unreadable, the corpus is
treated as empty and an apply-mode run writes only the new entries. -/
theorem loadExisting_error_fallback_witness :
    loadExisting (Except.error "ENOENT: no such file or directory") = [] ∧
    isDuplicate (loadExisting (Except.error "ENOENT: no such file or directory"))
      "https://cand.example/one" "candidate one" = false ∧
    (runMain envNoKey (.apply [artGamma])).written
      = some (merge [] [artGamma] envNoKey.today).1 :=
  ⟨(loadExisting_error_fallback "ENOENT: no such file or directory"
      "https://cand.example/one" "candidate one" "8.10.2025" [artGamma]).1,
   (loadExisting_error_fallback "ENOENT: no such file or directory"
      "https://cand.example/one" "candidate one" "8.10.2025" [artGamma]).2.1,
   (loadExisting_error_fallback "ENOENT: no such file or directory"
      "https://cand.example/one" "candidate one" "8.10.2025" [artGamma]).2.2.2.2
     envNoKey rfl⟩

/-- Concrete instance of C5: in the prose-reply run, the summarization
request carries exactly the two available candidates (the truncation of the
candidate list to the cap), within the cap of ten. -/
theorem claude_batch_capped_witness :
    (Event.claudeRequest ((newItemsOf envProse).take MAX_ARTICLES_PER_BATCH)
        ∈ (runMain envProse .auto).events) ∧
    ((newItemsOf envProse).take MAX_ARTICLES_PER_BATCH
        = (newItemsOf envProse).take MAX_ARTICLES_PER_BATCH ∧
      ((newItemsOf envProse).take MAX_ARTICLES_PER_BATCH).length
        ≤ MAX_ARTICLES_PER_BATCH) :=
  ⟨by decide,
    claude_batch_capped.2 envProse .auto
      ((newItemsOf envProse).take MAX_ARTICLES_PER_BATCH) (by decide)⟩
